import Mathlib

/-!
# opnsense_ntfy: a model of `main.go`

The program polls a feed, compares the id of the first item with the last id it
has seen, posts a message to every configured ntfy endpoint when they differ and
stores the new id in `config.yml`.

The Go functions are embedded as Lean functions that pass the state of the
outside world (`World`) explicitly.  Everything the program merely calls
(HTTP transport, XML and YAML codecs, `time.ParseDuration`, the order in which a
`range` loop visits a Go map, the file system's willingness to write) is a field
of `Env`.  A call either returns, panics, or ends the process (`log.Fatal`):
the three constructors of `Outcome`.
-/

namespace OpnsenseNtfy

/-! ## Data model -/

/-- A Go `error` value, identified by the text `Error()` returns. -/
structure GoError where
  msg : String
deriving DecidableEq, Repr

/-- Rendering of an `error` operand by `%v` and by `log.Println`: `<nil>` for a nil error. -/
def fmtErr : Option GoError → String
  | none => "<nil>"
  | some e => e.msg

/-- One element of `RSS.Items` (the anonymous struct of lines 19-24). -/
structure Item where
  ID : String
  Subject : String
  Body : String
  Link : String
deriving DecidableEq, Repr

/-- The `RSS` struct: the decoded feed, items in document order. -/
structure RSS where
  Items : List Item
deriving DecidableEq, Repr

/-- The `ServerConfig` struct. -/
structure ServerConfig where
  Token : String
  NtfyServer : String
deriving DecidableEq, Repr

/-- The `NTFYConfig` struct.  `Servers` is a Go map from group name to `ServerConfig`;
it is held as the list of its entries. -/
structure NTFYConfig where
  Servers : List (String × ServerConfig)
  LastSeenID : String
  FeedURL : String
  RefreshInterval : String
deriving DecidableEq, Repr

/-- A Go `map[string]string` held as the list of its entries (keys pairwise distinct). -/
abbrev ServerMap := List (String × String)

/-- Go's `m[k]` read with the comma-ok form: the value stored under `k`, if any. -/
def mapGet : ServerMap → String → Option String
  | [], _ => none
  | (k', v) :: m, k => if k' = k then some v else mapGet m k

/-- Go's `m[k] = v`: overwrite the entry of `k` when there is one, add one otherwise. -/
def mapSet : ServerMap → String → String → ServerMap
  | [], k, v => [(k, v)]
  | (k', v') :: m, k, v => if k' = k then (k, v) :: m else (k', v') :: mapSet m k v

/-- An outgoing HTTP request: what `http.NewRequest` builds and `Header.Set` amends. -/
structure Request where
  method : String
  url : String
  header : List (String × String)
  body : String
deriving DecidableEq, Repr

/-- The method `req.Header.Set(key, value)`: the value of `key` is replaced. -/
def Request.setHeader (r : Request) (key value : String) : Request :=
  { r with header := mapSet r.header key value }

/-- The method `req.Header.Get(key)` for the canonical keys the program uses. -/
def Request.getHeader (r : Request) (key : String) : Option String :=
  mapGet r.header key

/-- What the program does to the outside world, and the calls the claims count. -/
inductive Event where
  | httpGet (url : String)
  | httpDo (req : Request)
  | readFile
  | writeFile (data : String)
  | log (line : String)
  | sleep (d : Int)
  | callNotify (msg ntfyEndpoint authToken : String)
  | callWriteLastSeenID (id : String)
deriving DecidableEq, Repr

/-- The outside world: the content of `config.yml` (or the error `os.ReadFile`
reports for it) and the history of events so far, oldest first. -/
structure World where
  file : Except GoError String
  trace : List Event

/-- Append one event to the history. -/
def emit (e : Event) (w : World) : World :=
  { w with trace := w.trace ++ [e] }

/-- The external collaborators.  Answers may depend on the history, so a server
can answer differently each time it is asked. -/
structure Env where
  /-- The call `http.Get` followed by `io.Copy` of the body: transport error, or
  the body, or the error of reading it. -/
  httpGet : List Event → String → Except GoError (Except GoError String)
  /-- The call `xml.NewDecoder(buf).Decode(&feed)`. -/
  xmlDecode : String → Except GoError RSS
  /-- The error `http.NewRequest` reports for a URL it cannot parse. -/
  urlError : String → Option GoError
  /-- The call `client.Do`: transport error, or the status code of the response. -/
  clientDo : List Event → Request → Except GoError Int
  /-- The call `yaml.Unmarshal` into an `NTFYConfig`. -/
  yamlUnmarshal : String → Except GoError NTFYConfig
  /-- The call `yaml.Marshal` of an `NTFYConfig`. -/
  yamlMarshal : NTFYConfig → Except GoError String
  /-- The call `time.ParseDuration`, in nanoseconds. -/
  parseDuration : String → Except GoError Int
  /-- The call `os.WriteFile`: `none` when it succeeds, otherwise the error and what is
  left of the file. -/
  writeFile : List Event → String → Option (GoError × Except GoError String)
  /-- The order in which `range config.Servers` visits the entries. -/
  rangeServers : List Event → List (String × ServerConfig) → List (String × ServerConfig)
  /-- The order in which `range serverMap` visits the entries. -/
  rangeServerMap : List Event → ServerMap → ServerMap
  /-- A range loop visits every entry once. -/
  rangeServers_perm : ∀ t l, (rangeServers t l).Perm l
  /-- A range loop visits every entry once. -/
  rangeServerMap_perm : ∀ t l, (rangeServerMap t l).Perm l

/-- How a call ends: it returns a value, it panics (a run-time error that nothing
recovers), or the process exits (`log.Fatal` calls `os.Exit(1)`). -/
inductive Outcome (α : Type) where
  | ok (a : α) (w : World)
  | panic (reason : String) (w : World)
  | exit (code : Nat) (w : World)

/-- The world in which a call ended. -/
def Outcome.world {α : Type} : Outcome α → World
  | .ok _ w => w
  | .panic _ w => w
  | .exit _ w => w

/-! ## The functions of `main.go` -/

/-- The function `fetchFeed` (lines 39-56): returns `(feed, err)`, a nil feed being `none`. -/
def fetchFeed (env : Env) (url : String) (w : World) : (Option RSS × Option GoError) × World :=
  let w1 := emit (.httpGet url) w
  match env.httpGet w.trace url with
  | .error err => ((none, some err), w1)
  | .ok (.error err) => ((none, some err), w1)
  | .ok (.ok buf) =>
    match env.xmlDecode buf with
    | .error err => ((none, some err), w1)
    | .ok feed => ((some feed, none), w1)

/-- The call `http.NewRequest(method, url, body)`. -/
def newRequest (env : Env) (method url body : String) : Except GoError Request :=
  match env.urlError url with
  | some err => .error err
  | none => .ok { method := method, url := url, header := [], body := body }

/-- Lines 64-67 of `notify`: the headers set on the request `http.NewRequest` built. -/
def setHeaders (req : Request) (authToken : String) : Request :=
  let req := if authToken ≠ "" then req.setHeader "Authorization" ("Bearer " ++ authToken) else req
  req.setHeader "Content-Type" "text/plain"

/-- The function `notify` (lines 58-74). -/
def notify (env : Env) (msg ntfyEndpoint authToken : String) (w : World) :
    Option GoError × World :=
  let w0 := emit (.callNotify msg ntfyEndpoint authToken) w
  match newRequest env "POST" ntfyEndpoint msg with
  | .error err => (some err, w0)
  | .ok req =>
    let req := setHeaders req authToken
    let w1 := emit (.httpDo req) w0
    match env.clientDo w0.trace req with
    | .error err => (some ⟨"notification error: " ++ fmtErr (some err)⟩, w1)
    | .ok statusCode =>
      if statusCode ≠ 200 then (some ⟨"notification error: " ++ fmtErr none⟩, w1)
      else (none, w1)

/-- The loop of lines 88-90: `serverMap[serverConfig.NtfyServer] = serverConfig.Token`
for the entries in the order visited. -/
def buildServerMap (visited : List (String × ServerConfig)) : ServerMap :=
  visited.foldl (fun m kv => mapSet m kv.2.NtfyServer kv.2.Token) []

/-- The function `readConfig` (lines 76-98); a nil map is the empty list. -/
def readConfig (env : Env) (w : World) :
    (ServerMap × String × String × Int × Option GoError) × World :=
  let w1 := emit .readFile w
  match w.file with
  | .error err => (([], "", "", 0, some err), w1)
  | .ok data =>
    match env.yamlUnmarshal data with
    | .error err => (([], "", "", 0, some err), w1)
    | .ok config =>
      let serverMap := buildServerMap (env.rangeServers w1.trace config.Servers)
      let lastSeenID := config.LastSeenID
      let feedURL := config.FeedURL
      match env.parseDuration config.RefreshInterval with
      | .error err => (([], "", "", 0, some err), w1)
      | .ok refreshInterval => ((serverMap, lastSeenID, feedURL, refreshInterval, none), w1)

/-- The function `writeLastSeenID` (lines 123-144). -/
def writeLastSeenID (env : Env) (id : String) (w : World) : Outcome Unit :=
  let w0 := emit (.callWriteLastSeenID id) w
  let w1 := emit .readFile w0
  match w.file with
  | .error err =>
    .exit 1 (emit (.log ("Error reading configuration file:" ++ fmtErr (some err))) w1)
  | .ok config =>
    match env.yamlUnmarshal config with
    | .error err => .exit 1 (emit (.log ("Error parsing configuration:" ++ fmtErr (some err))) w1)
    | .ok parsedConfig =>
      let parsedConfig := { parsedConfig with LastSeenID := id }
      match env.yamlMarshal parsedConfig with
      | .error err =>
        .exit 1 (emit (.log ("Error marshaling configuration:" ++ fmtErr (some err))) w1)
      | .ok newConfig =>
        let w2 := emit (.writeFile newConfig) w1
        match env.writeFile w1.trace newConfig with
        | some (err, left) =>
          .exit 1 (emit (.log ("Error writing configuration:" ++ fmtErr (some err)))
            { w2 with file := left })
        | none => .ok () { w2 with file := .ok newConfig }

/-- The loop of lines 113-117 over the entries in the order visited. -/
def notifyAll (env : Env) (msg : String) : ServerMap → World → World
  | [], w => w
  | (server, authToken) :: rest, w =>
    match notify env msg server authToken w with
    | (some err, w1) =>
      notifyAll env msg rest
        (emit (.log ("Error sending notification to " ++ server ++ ": " ++ fmtErr (some err))) w1)
    | (none, w1) => notifyAll env msg rest w1

/-- The expression `feed.Items[0]` on a `*RSS`: a nil pointer and an empty slice panic. -/
def firstItem : Option RSS → Except String Item
  | none => .error "runtime error: invalid memory address or nil pointer dereference"
  | some feed =>
    match feed.Items with
    | [] => .error "runtime error: index out of range [0] with length 0"
    | it :: _ => .ok it

/-- The expression `len(feed.Items)` on a `*RSS` (evaluated only after `feed.Items[0]`). -/
def lenItems : Option RSS → Nat
  | none => 0
  | some feed => feed.Items.length

/-- The function `checkForUpdates` (lines 100-121). -/
def checkForUpdates (env : Env) (lastID : String) (serverMap : ServerMap) (feedURL : String)
    (w : World) : Outcome (String × Option GoError) :=
  match fetchFeed env feedURL w with
  | ((feed, err), w1) =>
    match firstItem feed with
    | .error reason => .panic reason w1
    | .ok first =>
      if first.ID = lastID then
        .ok (lastID, err)
          (emit (.log ("No updates. LastID: " ++ lastID ++ ", newID: " ++ first.ID)) w1)
      else if lenItems feed = 0 then
        .ok ("", some ⟨"no items in feed"⟩) w1
      else if err ≠ none then
        .ok ("", err) w1
      else
        let latest := first
        let msg := "New update: " ++ latest.Subject ++ "\n" ++ latest.Link ++ "\n" ++ latest.Body
        let w2 := notifyAll env msg (env.rangeServerMap w1.trace serverMap) w1
        match writeLastSeenID env latest.ID w2 with
        | .ok _ w3 => .ok (latest.ID, none) w3
        | .panic reason w3 => .panic reason w3
        | .exit code w3 => .exit code w3

/-- The variables of `main` that live across iterations of its loop. -/
structure LoopState where
  serverMap : ServerMap
  lastID : String
  feedURL : String
  refreshInterval : Int
deriving DecidableEq, Repr

/-- Lines 153-158 of `main` after `checkForUpdates` has returned `(newID, err)`:
the assignment or the log line, then `time.Sleep(refreshInterval)`. -/
def mainAfterCheck (st : LoopState) (r : String × Option GoError) (w : World) :
    LoopState × World :=
  match r with
  | (newID, none) => ({ st with lastID := newID }, emit (.sleep st.refreshInterval) w)
  | (_, some err) =>
    (st, emit (.sleep st.refreshInterval) (emit (.log ("Error: " ++ fmtErr (some err))) w))

/-- One iteration of the loop of `main` (lines 153-158). -/
def mainIteration (env : Env) (st : LoopState) (w : World) : Outcome LoopState :=
  match checkForUpdates env st.lastID st.serverMap st.feedURL w with
  | .ok r w1 => .ok (mainAfterCheck st r w1).1 (mainAfterCheck st r w1).2
  | .panic reason w1 => .panic reason w1
  | .exit code w1 => .exit code w1

/-- The first `n` iterations of the endless loop of `main`. -/
def mainLoop (env : Env) : Nat → LoopState → World → Outcome LoopState
  | 0, st, w => .ok st w
  | n + 1, st, w =>
    match mainIteration env st w with
    | .ok st1 w1 => mainLoop env n st1 w1
    | .panic reason w1 => .panic reason w1
    | .exit code w1 => .exit code w1

/-- The loop variables as `readConfig` initialises them, or the process exit of line 149. -/
def mainInit (env : Env) (w : World) : Outcome LoopState :=
  match readConfig env w with
  | ((_, _, _, _, some err), w1) =>
    .exit 1 (emit (.log ("Error reading configuration:" ++ fmtErr (some err))) w1)
  | ((serverMap, lastID, feedURL, refreshInterval, none), w1) =>
    .ok ⟨serverMap, lastID, feedURL, refreshInterval⟩ w1

/-- The function `main` (lines 146-160), observed after `n` iterations of its loop. -/
def main (env : Env) (n : Nat) (w : World) : Outcome LoopState :=
  match mainInit env w with
  | .ok st w1 => mainLoop env n st w1
  | .panic reason w1 => .panic reason w1
  | .exit code w1 => .exit code w1

/-! ## Observations on a history -/

/-- The calls of `notify` recorded in a history, as `(msg, ntfyEndpoint, authToken)`. -/
def notifyCalls : List Event → List (String × String × String)
  | [] => []
  | .callNotify msg ntfyEndpoint authToken :: t => (msg, ntfyEndpoint, authToken) :: notifyCalls t
  | _ :: t => notifyCalls t

/-- The calls of `writeLastSeenID` recorded in a history, by their argument. -/
def writeCalls : List Event → List String
  | [] => []
  | .callWriteLastSeenID id :: t => id :: writeCalls t
  | _ :: t => writeCalls t

/-- The requests handed to `client.Do` recorded in a history. -/
def requests : List Event → List Request
  | [] => []
  | .httpDo req :: t => req :: requests t
  | _ :: t => requests t

/-- The value a call returned, `none` when it panicked or the process exited. -/
def Outcome.result {α : Type} : Outcome α → Option α
  | .ok a _ => some a
  | .panic _ _ => none
  | .exit _ _ => none

/-- Whether a call ended the process through `log.Fatal`. -/
def Outcome.exited {α : Type} : Outcome α → Bool
  | .exit _ _ => true
  | _ => false

/-- The request `notify` hands to `client.Do` when `http.NewRequest` accepts the endpoint. -/
def notifyRequest (msg ntfyEndpoint authToken : String) : Request :=
  setHeaders { method := "POST", url := ntfyEndpoint, header := [], body := msg } authToken

/-- The codec reads back what it writes, up to the order of the entries of the
`Servers` map: `Unmarshal(Marshal(c)) = c`. -/
def RoundTrips (env : Env) : Prop :=
  ∀ c d, env.yamlMarshal c = .ok d →
    ∃ c', env.yamlUnmarshal d = .ok c' ∧ c'.Servers.Perm c.Servers ∧
      c'.LastSeenID = c.LastSeenID ∧ c'.FeedURL = c.FeedURL ∧
      c'.RefreshInterval = c.RefreshInterval

/-- The `last_seen_id` that `config.yml` holds, when the file reads and parses. -/
def storedLastSeenID (env : Env) (w : World) : Option String :=
  match w.file with
  | .error _ => none
  | .ok data =>
    match env.yamlUnmarshal data with
    | .error _ => none
    | .ok config => some config.LastSeenID

/-! ## A concrete environment

A small line-oriented codec stands in for the YAML library, fixed tables for the
network.  They give the theorems below inputs on which every definition evaluates. -/

/-- Whether a field can be written on one line. -/
def oneLine (s : String) : Bool :=
  !s.data.contains '\n'

/-- A field followed by a line break. -/
def encLine (s : String) : List Char :=
  s.data ++ ['\n']

/-- The server groups, three lines each: name, token, ntfy_server. -/
def encServers : List (String × ServerConfig) → List Char
  | [] => []
  | (name, sc) :: rest =>
    encLine name ++ (encLine sc.Token ++ (encLine sc.NtfyServer ++ encServers rest))

/-- Split the input at its first line break. -/
def takeLine : List Char → List Char × List Char
  | [] => ([], [])
  | c :: cs => if c = '\n' then ([], cs) else ((c :: (takeLine cs).1), (takeLine cs).2)

/-- Read `n` server groups, returning them with the rest of the input. -/
def decServers : Nat → List Char → List (String × ServerConfig) × List Char
  | 0, cs => ([], cs)
  | n + 1, cs =>
    let name := takeLine cs
    let token := takeLine name.2
    let server := takeLine token.2
    let rest := decServers n server.2
    ((String.mk name.1, ⟨String.mk token.1, String.mk server.1⟩) :: rest.1, rest.2)

/-- Serialise a configuration: the three scalar fields, one mark per server group,
then the groups.  A field with a line break in it cannot be written. -/
def lineMarshal (c : NTFYConfig) : Except GoError String :=
  if oneLine c.LastSeenID && oneLine c.FeedURL && oneLine c.RefreshInterval &&
      c.Servers.all (fun kv => oneLine kv.1 && oneLine kv.2.Token && oneLine kv.2.NtfyServer) then
    .ok (String.mk (encLine c.LastSeenID ++ (encLine c.FeedURL ++ (encLine c.RefreshInterval ++
      (List.replicate c.Servers.length '*' ++ '\n' :: encServers c.Servers)))))
  else .error ⟨"cannot marshal a field that holds a line break"⟩

/-- Parse what `lineMarshal` writes; input left over after the last group is an error. -/
def lineUnmarshal (data : String) : Except GoError NTFYConfig :=
  let lastSeenID := takeLine data.data
  let feedURL := takeLine lastSeenID.2
  let refreshInterval := takeLine feedURL.2
  let marks := takeLine refreshInterval.2
  let servers := decServers marks.1.length marks.2
  match servers.2 with
  | [] => .ok ⟨servers.1, String.mk lastSeenID.1, String.mk feedURL.1, String.mk refreshInterval.1⟩
  | _ :: _ => .error ⟨"cannot unmarshal: trailing input"⟩

/-- The feed item the demonstration feed starts with. -/
def item43 : Item := { ID := "43", Subject := "S", Body := "B", Link := "L" }

/-- The older item of the demonstration feed. -/
def item42 : Item := { ID := "42", Subject := "S0", Body := "B0", Link := "L0" }

/-- An environment over fixed tables.  The feed at `feed43` is `[item43, item42]`, the one
at `feed42` is `[item42]`, the one at `empty` has no items, `garbled` does not decode and
`down` does not answer; endpoint `D1` answers 500, `D3` refuses the connection, every
other one answers 200; `bad url` is no URL; `turn` tells whether a range loop, given the length
of the history, runs backwards. -/
def tableEnv (turn : Nat → Bool) : Env where
  httpGet := fun _ url =>
    if url = "down" then .error ⟨"dial tcp: connection refused"⟩ else .ok (.ok url)
  xmlDecode := fun buf =>
    if buf = "feed43" then .ok ⟨[item43, item42]⟩
    else if buf = "feed42" then .ok ⟨[item42]⟩
    else if buf = "empty" then .ok ⟨[]⟩
    else .error ⟨"EOF"⟩
  urlError := fun url => if url = "bad url" then some ⟨"parse: invalid URL"⟩ else none
  clientDo := fun _ req =>
    if req.url = "D1" then .ok 500
    else if req.url = "D3" then .error ⟨"dial tcp: connection refused"⟩
    else .ok 200
  yamlUnmarshal := lineUnmarshal
  yamlMarshal := lineMarshal
  parseDuration := fun s =>
    if s = "15m" then .ok 900000000000 else .error ⟨"time: invalid duration"⟩
  writeFile := fun _ _ => none
  rangeServers := fun t l => if turn t.length then l.reverse else l
  rangeServerMap := fun t l => if turn t.length then l.reverse else l
  rangeServers_perm := by
    intro t l
    cases h : turn t.length
    · simp [h]
    · simp [h]
  rangeServerMap_perm := by
    intro t l
    cases h : turn t.length
    · simp [h]
    · simp [h]

/-- The table environment whose range loops always run in list order. -/
def demoEnv : Env := tableEnv (fun _ => false)

/-- The table environment whose range loops run backwards once the history is longer
than one event. -/
def flipEnv : Env := tableEnv (fun n => decide (1 < n))

/-- A configuration with two destinations, `D1` without token and `D2` with token `t`,
that has last seen item 42. -/
def demoConfig : NTFYConfig :=
  { Servers := [("one", ⟨"", "D1"⟩), ("two", ⟨"t", "D2"⟩)]
    LastSeenID := "42"
    FeedURL := "feed43"
    RefreshInterval := "15m" }

/-- The content of `config.yml` for `demoConfig` in the line format. -/
def demoFile : String := "42\nfeed43\n15m\n**\none\n\nD1\ntwo\nt\nD2\n"

/-- A world whose `config.yml` holds `demoConfig` and in which nothing has happened yet. -/
def demoWorld : World := { file := .ok demoFile, trace := [] }

/-- A world without a readable `config.yml`. -/
def noFileWorld : World :=
  { file := .error ⟨"open config.yml: no such file or directory"⟩, trace := [] }

/-- A configuration whose groups `a` and `b` share the endpoint `X` and carry different
tokens. -/
def sharedConfig : NTFYConfig :=
  { Servers := [("a", ⟨"t1", "X"⟩), ("b", ⟨"t2", "X"⟩)]
    LastSeenID := "42"
    FeedURL := "feed43"
    RefreshInterval := "15m" }

/-- The content of `config.yml` for `sharedConfig` in the line format. -/
def sharedFile : String := "42\nfeed43\n15m\n**\na\nt1\nX\nb\nt2\nX\n"

/-- A world whose `config.yml` holds `sharedConfig` and in which nothing has happened yet. -/
def sharedWorld : World := { file := .ok sharedFile, trace := [] }

/-! ## Lemmas on histories -/

theorem notifyCalls_append (a b : List Event) :
    notifyCalls (a ++ b) = notifyCalls a ++ notifyCalls b := by
  induction a with
  | nil => rfl
  | cons e a ih => cases e <;> simp [notifyCalls, ih]

theorem writeCalls_append (a b : List Event) :
    writeCalls (a ++ b) = writeCalls a ++ writeCalls b := by
  induction a with
  | nil => rfl
  | cons e a ih => cases e <;> simp [writeCalls, ih]

theorem requests_append (a b : List Event) :
    requests (a ++ b) = requests a ++ requests b := by
  induction a with
  | nil => rfl
  | cons e a ih => cases e <;> simp [requests, ih]

theorem fetchFeed_world (env : Env) (url : String) (w : World) :
    (fetchFeed env url w).2 = emit (.httpGet url) w := by
  unfold fetchFeed
  cases env.httpGet w.trace url with
  | error e => rfl
  | ok body =>
    cases body with
    | error e => rfl
    | ok buf => cases h : env.xmlDecode buf <;> simp [h]

/-- The function `fetchFeed` returns a feed and no error, or no feed and an error. -/
theorem fetchFeed_cases (env : Env) (url : String) (w : World) :
    (∃ feed, (fetchFeed env url w).1 = (some feed, none)) ∨
      (∃ err, (fetchFeed env url w).1 = (none, some err)) := by
  unfold fetchFeed
  cases env.httpGet w.trace url with
  | error e => exact Or.inr ⟨e, rfl⟩
  | ok body =>
    cases body with
    | error e => exact Or.inr ⟨e, rfl⟩
    | ok buf =>
      cases h : env.xmlDecode buf with
      | error e => exact Or.inr ⟨e, by simp [h]⟩
      | ok feed => exact Or.inl ⟨feed, by simp [h]⟩

/-! ## The claims -/

/-- C1 (the code departs from the claim): when the fetched feed parses but has no items,
`checkForUpdates` does not return the empty-feed error; it panics on `feed.Items[0]`, which
line 102 evaluates before line 105 tests `len(feed.Items) == 0`. -/
theorem checkForUpdates_empty_feed_panics (env : Env) (lastID : String) (serverMap : ServerMap)
    (feedURL : String) (w w1 : World) (feed : RSS)
    (hfetch : fetchFeed env feedURL w = ((some feed, none), w1)) (hempty : feed.Items = []) :
    checkForUpdates env lastID serverMap feedURL w =
      .panic "runtime error: index out of range [0] with length 0" w1 := by
  unfold checkForUpdates
  rw [hfetch]
  simp [firstItem, hempty]

/-- C1 at a concrete input: the feed at `empty` decodes to a feed without items, and
`checkForUpdates` panics instead of returning an error. -/
theorem checkForUpdates_empty_feed_panics_witness :
    fetchFeed demoEnv "empty" demoWorld = ((some ⟨[]⟩, none), emit (.httpGet "empty") demoWorld) ∧
    checkForUpdates demoEnv "42" [("D1", ""), ("D2", "t")] "empty" demoWorld =
      .panic "runtime error: index out of range [0] with length 0"
        (emit (.httpGet "empty") demoWorld) :=
  ⟨rfl, checkForUpdates_empty_feed_panics demoEnv "42" [("D1", ""), ("D2", "t")] "empty"
    demoWorld (emit (.httpGet "empty") demoWorld) ⟨[]⟩ rfl rfl⟩

/-- C2 (the code departs from the claim): when `fetchFeed` fails, returning a nil feed and
an error, `checkForUpdates` does not return that error; it panics dereferencing the nil
feed in `feed.Items[0]`, which line 102 evaluates before line 107 tests `err != nil`. -/
theorem checkForUpdates_failed_fetch_panics (env : Env) (lastID : String)
    (serverMap : ServerMap) (feedURL : String) (w w1 : World) (err : GoError)
    (hfetch : fetchFeed env feedURL w = ((none, some err), w1)) :
    checkForUpdates env lastID serverMap feedURL w =
      .panic "runtime error: invalid memory address or nil pointer dereference" w1 := by
  unfold checkForUpdates
  rw [hfetch]
  simp [firstItem]

/-- C2 at a concrete input: the host of `down` refuses the connection, `fetchFeed` returns
a nil feed with the transport error, and `checkForUpdates` panics. -/
theorem checkForUpdates_failed_fetch_panics_witness :
    fetchFeed demoEnv "down" demoWorld =
      ((none, some ⟨"dial tcp: connection refused"⟩), emit (.httpGet "down") demoWorld) ∧
    checkForUpdates demoEnv "42" [("D1", ""), ("D2", "t")] "down" demoWorld =
      .panic "runtime error: invalid memory address or nil pointer dereference"
        (emit (.httpGet "down") demoWorld) :=
  ⟨rfl, checkForUpdates_failed_fetch_panics demoEnv "42" [("D1", ""), ("D2", "t")] "down"
    demoWorld (emit (.httpGet "down") demoWorld) ⟨"dial tcp: connection refused"⟩ rfl⟩

/-- C3: when the fetch succeeds with a non-empty feed whose first item has id `lastID`,
`checkForUpdates` returns `(lastID, nil)`; no call of `notify`, no call of
`writeLastSeenID` and no request is added to the history and `config.yml` is untouched,
whatever the destination map and the remaining items are. -/
theorem checkForUpdates_no_update (env : Env) (lastID : String) (serverMap : ServerMap)
    (feedURL : String) (w w1 : World) (feed : RSS) (first : Item) (rest : List Item)
    (hfetch : fetchFeed env feedURL w = ((some feed, none), w1))
    (hitems : feed.Items = first :: rest) (hid : first.ID = lastID) :
    ∃ w2, checkForUpdates env lastID serverMap feedURL w = .ok (lastID, none) w2 ∧
      notifyCalls w2.trace = notifyCalls w.trace ∧
      writeCalls w2.trace = writeCalls w.trace ∧
      requests w2.trace = requests w.trace ∧
      w2.file = w.file := by
  have hw1 : w1 = emit (.httpGet feedURL) w := by
    have h := fetchFeed_world env feedURL w
    rw [hfetch] at h
    exact h
  refine ⟨emit (.log ("No updates. LastID: " ++ lastID ++ ", newID: " ++ first.ID)) w1, ?_, ?_, ?_, ?_, ?_⟩
  · unfold checkForUpdates
    rw [hfetch]
    simp [firstItem, hitems, hid]
  · simp [hw1, emit, notifyCalls_append, notifyCalls]
  · simp [hw1, emit, writeCalls_append, writeCalls]
  · simp [hw1, emit, requests_append, requests]
  · simp [hw1, emit]

/-- C3 at a concrete input: the stored id is 42 and the feed at `feed42` starts with item 42. -/
theorem checkForUpdates_no_update_witness :
    ∃ w2, checkForUpdates demoEnv "42" [("D1", ""), ("D2", "t")] "feed42" demoWorld =
        .ok ("42", none) w2 ∧
      notifyCalls w2.trace = notifyCalls demoWorld.trace ∧
      writeCalls w2.trace = writeCalls demoWorld.trace ∧
      requests w2.trace = requests demoWorld.trace ∧
      w2.file = demoWorld.file :=
  checkForUpdates_no_update demoEnv "42" [("D1", ""), ("D2", "t")] "feed42" demoWorld
    (emit (.httpGet "feed42") demoWorld) ⟨[item42]⟩ item42 [] rfl rfl rfl

/-! ## Lemmas on `notify`, the notification loop and `writeLastSeenID` -/

theorem notify_buildable (env : Env) (msg ntfyEndpoint authToken : String) (w : World)
    (hurl : env.urlError ntfyEndpoint = none) :
    (notify env msg ntfyEndpoint authToken w).2 =
        emit (.httpDo (notifyRequest msg ntfyEndpoint authToken))
          (emit (.callNotify msg ntfyEndpoint authToken) w) ∧
      (notify env msg ntfyEndpoint authToken w).1 =
        match env.clientDo (emit (.callNotify msg ntfyEndpoint authToken) w).trace
            (notifyRequest msg ntfyEndpoint authToken) with
        | .error err => some ⟨"notification error: " ++ fmtErr (some err)⟩
        | .ok statusCode =>
          if statusCode ≠ 200 then some ⟨"notification error: " ++ fmtErr none⟩ else none := by
  unfold notify newRequest notifyRequest
  simp only [hurl]
  cases h : env.clientDo (emit (.callNotify msg ntfyEndpoint authToken) w).trace
      (setHeaders { method := "POST", url := ntfyEndpoint, header := [], body := msg } authToken) with
  | error err => simp
  | ok statusCode =>
    by_cases hs : statusCode = 200
    · simp [hs]
    · simp [hs]

theorem notify_unbuildable (env : Env) (msg ntfyEndpoint authToken : String) (w : World)
    (err : GoError) (hurl : env.urlError ntfyEndpoint = some err) :
    notify env msg ntfyEndpoint authToken w =
      (some err, emit (.callNotify msg ntfyEndpoint authToken) w) := by
  unfold notify newRequest
  simp [hurl]

/-- The world `notify` leaves: its call, then its one request when it could be built. -/
theorem notify_world (env : Env) (msg ntfyEndpoint authToken : String) (w : World) :
    (notify env msg ntfyEndpoint authToken w).2.file = w.file ∧
      (notify env msg ntfyEndpoint authToken w).2.trace =
        w.trace ++ .callNotify msg ntfyEndpoint authToken ::
          (if (env.urlError ntfyEndpoint).isNone
            then [.httpDo (notifyRequest msg ntfyEndpoint authToken)] else []) := by
  cases hurl : env.urlError ntfyEndpoint with
  | none =>
    rw [(notify_buildable env msg ntfyEndpoint authToken w hurl).1]
    simp [emit]
  | some err =>
    rw [notify_unbuildable env msg ntfyEndpoint authToken w err hurl]
    simp [emit]

theorem notifyAll_file (env : Env) (msg : String) (l : ServerMap) (w : World) :
    (notifyAll env msg l w).file = w.file := by
  induction l generalizing w with
  | nil => rfl
  | cons kv l ih =>
    obtain ⟨server, authToken⟩ := kv
    have hw := (notify_world env msg server authToken w).1
    unfold notifyAll
    cases h : notify env msg server authToken w with
    | mk r w1 =>
      rw [h] at hw
      cases r with
      | none => simp only [ih]; exact hw
      | some err => simp only [ih, emit]; exact hw

theorem notifyAll_notifyCalls (env : Env) (msg : String) (l : ServerMap) (w : World) :
    notifyCalls (notifyAll env msg l w).trace =
      notifyCalls w.trace ++ l.map (fun kv => (msg, kv.1, kv.2)) := by
  induction l generalizing w with
  | nil => simp [notifyAll]
  | cons kv l ih =>
    obtain ⟨server, authToken⟩ := kv
    have hw := (notify_world env msg server authToken w).2
    unfold notifyAll
    cases h : notify env msg server authToken w with
    | mk r w1 =>
      rw [h] at hw
      simp only at hw
      cases r with
      | none =>
        simp only [ih, hw, notifyCalls_append]
        cases (env.urlError server).isNone <;> simp [notifyCalls]
      | some err =>
        simp only [ih, emit, hw, notifyCalls_append]
        cases (env.urlError server).isNone <;> simp [notifyCalls]

theorem notifyAll_writeCalls (env : Env) (msg : String) (l : ServerMap) (w : World) :
    writeCalls (notifyAll env msg l w).trace = writeCalls w.trace := by
  induction l generalizing w with
  | nil => simp [notifyAll]
  | cons kv l ih =>
    obtain ⟨server, authToken⟩ := kv
    have hw := (notify_world env msg server authToken w).2
    unfold notifyAll
    cases h : notify env msg server authToken w with
    | mk r w1 =>
      rw [h] at hw
      simp only at hw
      cases r with
      | none =>
        simp only [ih, hw, writeCalls_append]
        cases (env.urlError server).isNone <;> simp [writeCalls]
      | some err =>
        simp only [ih, emit, hw, writeCalls_append]
        cases (env.urlError server).isNone <;> simp [writeCalls]

theorem notifyAll_requests (env : Env) (msg : String) (l : ServerMap) (w : World) :
    requests (notifyAll env msg l w).trace =
      requests w.trace ++
        (l.filter (fun kv => (env.urlError kv.1).isNone)).map
          (fun kv => notifyRequest msg kv.1 kv.2) := by
  induction l generalizing w with
  | nil => simp [notifyAll]
  | cons kv l ih =>
    obtain ⟨server, authToken⟩ := kv
    have hw := (notify_world env msg server authToken w).2
    unfold notifyAll
    cases h : notify env msg server authToken w with
    | mk r w1 =>
      rw [h] at hw
      simp only at hw
      cases r with
      | none =>
        simp only [ih, hw, requests_append]
        cases hb : (env.urlError server).isNone <;> simp [requests, List.filter, hb]
      | some err =>
        simp only [ih, emit, hw, requests_append]
        cases hb : (env.urlError server).isNone <;> simp [requests, List.filter, hb]

/-- The history `writeLastSeenID` leaves, however it ends: its own call is the one call
added and no call of `notify` and no request is. -/
theorem writeLastSeenID_trace (env : Env) (id : String) (w : World) :
    ∃ after, (writeLastSeenID env id w).world.trace =
        w.trace ++ .callWriteLastSeenID id :: after ∧
      notifyCalls after = [] ∧ writeCalls after = [] ∧ requests after = [] := by
  unfold writeLastSeenID
  cases hf : w.file with
  | error err =>
    exact ⟨[.readFile, .log ("Error reading configuration file:" ++ fmtErr (some err))],
      by simp [Outcome.world, emit], rfl, rfl, rfl⟩
  | ok config =>
    cases hu : env.yamlUnmarshal config with
    | error err =>
      exact ⟨[.readFile, .log ("Error parsing configuration:" ++ fmtErr (some err))],
        by simp [Outcome.world, emit, hu], rfl, rfl, rfl⟩
    | ok parsedConfig =>
      cases hm : env.yamlMarshal { parsedConfig with LastSeenID := id } with
      | error err =>
        exact ⟨[.readFile, .log ("Error marshaling configuration:" ++ fmtErr (some err))],
          by simp [Outcome.world, emit, hu, hm], rfl, rfl, rfl⟩
      | ok newConfig =>
        cases hw : env.writeFile (emit .readFile (emit (.callWriteLastSeenID id) w)).trace
            newConfig with
        | some p =>
          simp [emit] at hw
          exact ⟨[.readFile, .writeFile newConfig,
              .log ("Error writing configuration:" ++ fmtErr (some p.1))],
            by simp [Outcome.world, emit, hu, hm, hw], rfl, rfl, rfl⟩
        | none =>
          simp [emit] at hw
          exact ⟨[.readFile, .writeFile newConfig],
            by simp [Outcome.world, emit, hu, hm, hw], rfl, rfl, rfl⟩

/-- The function `writeLastSeenID` returns or ends the process; it does not panic. -/
theorem writeLastSeenID_ends (env : Env) (id : String) (w : World) :
    (∃ w1, writeLastSeenID env id w = .ok () w1) ∨
      (∃ w1, writeLastSeenID env id w = .exit 1 w1) := by
  unfold writeLastSeenID
  cases hf : w.file with
  | error err => exact Or.inr ⟨_, rfl⟩
  | ok config =>
    cases hu : env.yamlUnmarshal config with
    | error err =>
      simp only [hu]
      exact Or.inr ⟨_, rfl⟩
    | ok parsedConfig =>
      cases hm : env.yamlMarshal { parsedConfig with LastSeenID := id } with
      | error err =>
        simp only [hu, hm]
        exact Or.inr ⟨_, rfl⟩
      | ok newConfig =>
        cases hw : env.writeFile (emit .readFile (emit (.callWriteLastSeenID id) w)).trace
            newConfig with
        | some p =>
          simp only [hu, hm, hw]
          exact Or.inr ⟨_, rfl⟩
        | none =>
          simp only [hu, hm, hw]
          exact Or.inl ⟨_, rfl⟩

/-- When `config.yml` reads and parses, the amended configuration serialises and the
file system takes the write, `writeLastSeenID` returns and the file holds the new text. -/
theorem writeLastSeenID_returns (env : Env) (id : String) (w : World) (data newData : String)
    (cfg : NTFYConfig) (hfile : w.file = .ok data) (hparse : env.yamlUnmarshal data = .ok cfg)
    (hmarshal : env.yamlMarshal { cfg with LastSeenID := id } = .ok newData)
    (hwrite : ∀ t, env.writeFile t newData = none) :
    ∃ w1, writeLastSeenID env id w = .ok () w1 ∧ w1.file = .ok newData := by
  unfold writeLastSeenID
  simp [hfile, hparse, hmarshal, hwrite]

/-- When `writeLastSeenID` returns, `config.yml` had read and parsed, and now holds the
serialisation of what was parsed with `LastSeenID` replaced. -/
theorem writeLastSeenID_ok (env : Env) (id : String) (w w1 : World)
    (h : writeLastSeenID env id w = .ok () w1) :
    ∃ data cfg newData, w.file = .ok data ∧ env.yamlUnmarshal data = .ok cfg ∧
      env.yamlMarshal { cfg with LastSeenID := id } = .ok newData ∧ w1.file = .ok newData := by
  unfold writeLastSeenID at h
  cases hf : w.file with
  | error err => simp [hf] at h
  | ok config =>
    cases hu : env.yamlUnmarshal config with
    | error err => simp [hf, hu] at h
    | ok parsedConfig =>
      cases hm : env.yamlMarshal { parsedConfig with LastSeenID := id } with
      | error err => simp [hf, hu, hm] at h
      | ok newConfig =>
        cases hw : env.writeFile (emit .readFile (emit (.callWriteLastSeenID id) w)).trace
            newConfig with
        | some p => simp [hf, hu, hm, hw] at h
        | none =>
          simp [hf, hu, hm, hw] at h
          exact ⟨config, parsedConfig, newConfig, rfl, hu, hm, by rw [← h]⟩

/-- On the update path `checkForUpdates` is the notification loop followed by
`writeLastSeenID`, whose way of ending it passes on. -/
theorem checkForUpdates_update_eq (env : Env) (lastID : String) (serverMap : ServerMap)
    (feedURL : String) (w w1 : World) (feed : RSS) (first : Item) (rest : List Item)
    (hfetch : fetchFeed env feedURL w = ((some feed, none), w1))
    (hitems : feed.Items = first :: rest) (hid : first.ID ≠ lastID) :
    checkForUpdates env lastID serverMap feedURL w =
      match writeLastSeenID env first.ID
          (notifyAll env ("New update: " ++ first.Subject ++ "\n" ++ first.Link ++ "\n" ++ first.Body)
            (env.rangeServerMap w1.trace serverMap) w1) with
      | .ok _ w3 => .ok (first.ID, none) w3
      | .panic reason w3 => .panic reason w3
      | .exit code w3 => .exit code w3 := by
  unfold checkForUpdates
  rw [hfetch]
  simp [firstItem, hitems, hid, lenItems]

/-- The properties of the request `notify` builds. -/
theorem notifyRequest_shape (msg ntfyEndpoint authToken : String) :
    (notifyRequest msg ntfyEndpoint authToken).method = "POST" ∧
      (notifyRequest msg ntfyEndpoint authToken).url = ntfyEndpoint ∧
      (notifyRequest msg ntfyEndpoint authToken).body = msg ∧
      (notifyRequest msg ntfyEndpoint authToken).getHeader "Content-Type" = some "text/plain" ∧
      (notifyRequest msg ntfyEndpoint authToken).getHeader "Authorization" =
        if authToken = "" then none else some ("Bearer " ++ authToken) := by
  by_cases h : authToken = ""
  · simp [notifyRequest, setHeaders, Request.setHeader, Request.getHeader, mapSet, mapGet, h]
  · simp [notifyRequest, setHeaders, Request.setHeader, Request.getHeader, mapSet, mapGet, h]

/-- C6: when the request can be built, `notify` returns nil exactly when the transport
succeeds with status 200, returns an error exactly when the transport reports an error or
the status is not 200, and hands exactly one request to the transport (no retry). -/
theorem notify_error_iff (env : Env) (msg ntfyEndpoint authToken : String) (w : World)
    (hurl : env.urlError ntfyEndpoint = none) :
    ((notify env msg ntfyEndpoint authToken w).1 = none ↔
        env.clientDo (emit (.callNotify msg ntfyEndpoint authToken) w).trace
          (notifyRequest msg ntfyEndpoint authToken) = .ok 200) ∧
      ((notify env msg ntfyEndpoint authToken w).1 ≠ none ↔
        (∃ err, env.clientDo (emit (.callNotify msg ntfyEndpoint authToken) w).trace
          (notifyRequest msg ntfyEndpoint authToken) = .error err) ∨
        (∃ statusCode, env.clientDo (emit (.callNotify msg ntfyEndpoint authToken) w).trace
          (notifyRequest msg ntfyEndpoint authToken) = .ok statusCode ∧ statusCode ≠ 200)) ∧
      requests (notify env msg ntfyEndpoint authToken w).2.trace =
        requests w.trace ++ [notifyRequest msg ntfyEndpoint authToken] := by
  obtain ⟨hw, hr⟩ := notify_buildable env msg ntfyEndpoint authToken w hurl
  refine ⟨?_, ?_, ?_⟩
  · rw [hr]
    cases h : env.clientDo (emit (.callNotify msg ntfyEndpoint authToken) w).trace
        (notifyRequest msg ntfyEndpoint authToken) with
    | error err => simp
    | ok statusCode => by_cases hs : statusCode = 200 <;> simp [hs]
  · rw [hr]
    cases h : env.clientDo (emit (.callNotify msg ntfyEndpoint authToken) w).trace
        (notifyRequest msg ntfyEndpoint authToken) with
    | error err => simp
    | ok statusCode => by_cases hs : statusCode = 200 <;> simp [hs]
  · rw [hw]
    simp [emit, requests_append, requests]

/-- C6 at concrete inputs: `D2` answers 200 and `notify` returns nil after one request. -/
theorem notify_error_iff_witness :
    demoEnv.urlError "D2" = none ∧
      (notify demoEnv "m" "D2" "t" demoWorld).1 = none ∧
      requests (notify demoEnv "m" "D2" "t" demoWorld).2.trace =
        requests demoWorld.trace ++ [notifyRequest "m" "D2" "t"] :=
  ⟨rfl, (notify_error_iff demoEnv "m" "D2" "t" demoWorld rfl).1.2 rfl,
    (notify_error_iff demoEnv "m" "D2" "t" demoWorld rfl).2.2⟩

/-- C4 (as amended): when the fetch succeeds with a non-empty feed whose first item's id
differs from `lastID`, then, whatever the notifications answer, `checkForUpdates` calls
`notify` once for each entry of the destination map with the update message, after that
calls `writeLastSeenID` once with the first item's id, and ends either returning
`(first id, nil)` or by the process exit of `writeLastSeenID`; it returns `(first id, nil)`
with the new text in `config.yml` whenever the file reads and parses, the amended
configuration serialises and the file system takes the write. -/
theorem checkForUpdates_update (env : Env) (lastID : String) (serverMap : ServerMap)
    (feedURL : String) (w w1 : World) (feed : RSS) (first : Item) (rest : List Item)
    (hfetch : fetchFeed env feedURL w = ((some feed, none), w1))
    (hitems : feed.Items = first :: rest) (hid : first.ID ≠ lastID) :
    ∃ (visited : ServerMap) (before after : List Event),
      visited.Perm serverMap ∧
      (checkForUpdates env lastID serverMap feedURL w).world.trace =
        before ++ .callWriteLastSeenID first.ID :: after ∧
      notifyCalls before = notifyCalls w.trace ++ visited.map (fun kv =>
        ("New update: " ++ first.Subject ++ "\n" ++ first.Link ++ "\n" ++ first.Body,
          kv.1, kv.2)) ∧
      writeCalls before = writeCalls w.trace ∧
      notifyCalls after = [] ∧ writeCalls after = [] ∧
      ((checkForUpdates env lastID serverMap feedURL w).result = some (first.ID, none) ∨
        (checkForUpdates env lastID serverMap feedURL w).exited = true) ∧
      (∀ data cfg newData, w.file = .ok data → env.yamlUnmarshal data = .ok cfg →
        env.yamlMarshal { cfg with LastSeenID := first.ID } = .ok newData →
        (∀ t, env.writeFile t newData = none) →
        ∃ w3, checkForUpdates env lastID serverMap feedURL w = .ok (first.ID, none) w3 ∧
          w3.file = .ok newData) := by
  have heq := checkForUpdates_update_eq env lastID serverMap feedURL w w1 feed first rest
    hfetch hitems hid
  have hw1 : w1 = emit (.httpGet feedURL) w := by
    have h := fetchFeed_world env feedURL w
    rw [hfetch] at h
    exact h
  generalize hmsg :
    "New update: " ++ first.Subject ++ "\n" ++ first.Link ++ "\n" ++ first.Body = msg at heq ⊢
  generalize hw2 : notifyAll env msg (env.rangeServerMap w1.trace serverMap) w1 = w2 at heq
  have hfile2 : w2.file = w.file := by
    rw [← hw2, notifyAll_file, hw1]
    rfl
  have hn2 : notifyCalls w2.trace = notifyCalls w.trace ++
      (env.rangeServerMap w1.trace serverMap).map (fun kv => (msg, kv.1, kv.2)) := by
    rw [← hw2, notifyAll_notifyCalls, hw1]
    simp [emit, notifyCalls_append, notifyCalls]
  have hwc2 : writeCalls w2.trace = writeCalls w.trace := by
    rw [← hw2, notifyAll_writeCalls, hw1]
    simp [emit, writeCalls_append, writeCalls]
  obtain ⟨after, htr, hna, hwa, _⟩ := writeLastSeenID_trace env first.ID w2
  have hworld : (checkForUpdates env lastID serverMap feedURL w).world =
      (writeLastSeenID env first.ID w2).world := by
    rw [heq]
    cases writeLastSeenID env first.ID w2 <;> rfl
  refine ⟨env.rangeServerMap w1.trace serverMap, w2.trace, after,
    env.rangeServerMap_perm _ _, ?_, hn2, hwc2, hna, hwa, ?_, ?_⟩
  · rw [hworld, htr]
  · rcases writeLastSeenID_ends env first.ID w2 with ⟨w3, h3⟩ | ⟨w3, h3⟩
    · left
      rw [heq, h3]
      rfl
    · right
      rw [heq, h3]
      rfl
  · intro data cfg newData hfile hparse hmarshal hwrite
    obtain ⟨w3, h3, hf3⟩ := writeLastSeenID_returns env first.ID w2 data newData cfg
      (by rw [hfile2]; exact hfile) hparse hmarshal hwrite
    exact ⟨w3, by rw [heq, h3], hf3⟩

/-- C4 at a concrete input: stored id 42, feed `[item43, item42]`, destinations `D1`
(which answers 500) and `D2`; both are notified, the id 43 is written and returned. -/
theorem checkForUpdates_update_witness :
    fetchFeed demoEnv "feed43" demoWorld =
        ((some ⟨[item43, item42]⟩, none), emit (.httpGet "feed43") demoWorld) ∧
      item43.ID ≠ "42" ∧
      (notify demoEnv "x" "D1" "" demoWorld).1 ≠ none ∧
      ∃ (visited : ServerMap) (before after : List Event),
        visited.Perm [("D1", ""), ("D2", "t")] ∧
        (checkForUpdates demoEnv "42" [("D1", ""), ("D2", "t")] "feed43" demoWorld).world.trace =
          before ++ .callWriteLastSeenID item43.ID :: after ∧
        notifyCalls before = notifyCalls demoWorld.trace ++ visited.map (fun kv =>
          ("New update: " ++ item43.Subject ++ "\n" ++ item43.Link ++ "\n" ++ item43.Body,
            kv.1, kv.2)) ∧
        writeCalls before = writeCalls demoWorld.trace ∧
        notifyCalls after = [] ∧ writeCalls after = [] ∧
        ((checkForUpdates demoEnv "42" [("D1", ""), ("D2", "t")] "feed43" demoWorld).result =
            some (item43.ID, none) ∨
          (checkForUpdates demoEnv "42" [("D1", ""), ("D2", "t")] "feed43" demoWorld).exited =
            true) ∧
        (∀ data cfg newData, demoWorld.file = .ok data → demoEnv.yamlUnmarshal data = .ok cfg →
          demoEnv.yamlMarshal { cfg with LastSeenID := item43.ID } = .ok newData →
          (∀ t, demoEnv.writeFile t newData = none) →
          ∃ w3, checkForUpdates demoEnv "42" [("D1", ""), ("D2", "t")] "feed43" demoWorld =
              .ok (item43.ID, none) w3 ∧
            w3.file = .ok newData) :=
  ⟨rfl, by decide, by decide,
    checkForUpdates_update demoEnv "42" [("D1", ""), ("D2", "t")] "feed43" demoWorld
      (emit (.httpGet "feed43") demoWorld) ⟨[item43, item42]⟩ item43 [item42] rfl rfl
      (by decide)⟩

/-- C4 as stated fails: with the feed `[item43, item42]` fetched, stored id 42 and
`config.yml` unreadable when the id is to be stored, both destinations are notified and
`writeLastSeenID` is called with 43, but `checkForUpdates` does not return `(43, nil)`:
the process exits inside `writeLastSeenID`. -/
theorem checkForUpdates_update_counterexample :
    fetchFeed demoEnv "feed43" noFileWorld =
        ((some ⟨[item43, item42]⟩, none), emit (.httpGet "feed43") noFileWorld) ∧
      item43.ID ≠ "42" ∧
      notifyCalls
          (checkForUpdates demoEnv "42" [("D1", ""), ("D2", "t")] "feed43" noFileWorld).world.trace =
        [("New update: S\nL\nB", "D1", ""), ("New update: S\nL\nB", "D2", "t")] ∧
      writeCalls
          (checkForUpdates demoEnv "42" [("D1", ""), ("D2", "t")] "feed43" noFileWorld).world.trace =
        ["43"] ∧
      (checkForUpdates demoEnv "42" [("D1", ""), ("D2", "t")] "feed43" noFileWorld).result ≠
        some ("43", none) ∧
      (checkForUpdates demoEnv "42" [("D1", ""), ("D2", "t")] "feed43" noFileWorld).exited = true :=
  ⟨rfl, by decide, rfl, rfl, by decide, rfl⟩

/-- C5: on the update path the requests handed to the transport are, for the entries of
the destination map in the order visited whose endpoint `http.NewRequest` accepts, one
request each; such a request is a POST to the endpoint whose body is
`"New update: " ++ subject ++ "\n" ++ link ++ "\n" ++ body` of the first item, with
`Content-Type: text/plain`, and with `Authorization: Bearer token` when the token is not
empty and no `Authorization` header when it is. -/
theorem checkForUpdates_requests (env : Env) (lastID : String) (serverMap : ServerMap)
    (feedURL : String) (w w1 : World) (feed : RSS) (first : Item) (rest : List Item)
    (hfetch : fetchFeed env feedURL w = ((some feed, none), w1))
    (hitems : feed.Items = first :: rest) (hid : first.ID ≠ lastID) :
    ∃ (visited : ServerMap) (sent : List Request),
      visited.Perm serverMap ∧
      requests (checkForUpdates env lastID serverMap feedURL w).world.trace =
        requests w.trace ++ sent ∧
      sent.map (fun r => r.url) =
        (visited.filter (fun kv => (env.urlError kv.1).isNone)).map (fun kv => kv.1) ∧
      ∀ r ∈ sent, ∃ kv ∈ serverMap, r.url = kv.1 ∧ r.method = "POST" ∧
        r.body = "New update: " ++ first.Subject ++ "\n" ++ first.Link ++ "\n" ++ first.Body ∧
        r.getHeader "Content-Type" = some "text/plain" ∧
        r.getHeader "Authorization" = if kv.2 = "" then none else some ("Bearer " ++ kv.2) := by
  have heq := checkForUpdates_update_eq env lastID serverMap feedURL w w1 feed first rest
    hfetch hitems hid
  have hw1 : w1 = emit (.httpGet feedURL) w := by
    have h := fetchFeed_world env feedURL w
    rw [hfetch] at h
    exact h
  generalize hmsg :
    "New update: " ++ first.Subject ++ "\n" ++ first.Link ++ "\n" ++ first.Body = msg at heq ⊢
  generalize hw2 : notifyAll env msg (env.rangeServerMap w1.trace serverMap) w1 = w2 at heq
  have hr2 : requests w2.trace = requests w.trace ++
      ((env.rangeServerMap w1.trace serverMap).filter (fun kv => (env.urlError kv.1).isNone)).map
        (fun kv => notifyRequest msg kv.1 kv.2) := by
    rw [← hw2, notifyAll_requests, hw1]
    simp [emit, requests_append, requests]
  obtain ⟨after, htr, _, _, hra⟩ := writeLastSeenID_trace env first.ID w2
  have hworld : (checkForUpdates env lastID serverMap feedURL w).world =
      (writeLastSeenID env first.ID w2).world := by
    rw [heq]
    cases writeLastSeenID env first.ID w2 <;> rfl
  refine ⟨env.rangeServerMap w1.trace serverMap,
    ((env.rangeServerMap w1.trace serverMap).filter (fun kv => (env.urlError kv.1).isNone)).map
      (fun kv => notifyRequest msg kv.1 kv.2), env.rangeServerMap_perm _ _, ?_, ?_, ?_⟩
  · rw [hworld, htr, requests_append, hr2]
    simp only [requests, hra, List.append_nil]
  · simp [List.map_map, Function.comp, (notifyRequest_shape msg _ _).2.1]
  · intro r hr
    obtain ⟨kv, hkv, rfl⟩ := List.mem_map.1 hr
    have hmem : kv ∈ serverMap :=
      (env.rangeServerMap_perm w1.trace serverMap).mem_iff.1 (List.mem_filter.1 hkv).1
    obtain ⟨h1, h2, h3, h4, h5⟩ := notifyRequest_shape msg kv.1 kv.2
    exact ⟨kv, hmem, h2, h1, h3, h4, h5⟩

/-- C5 at the scenario of the specification: stored id 42, first item
`(43, S, L, B)`, `D1` without token and `D2` with token `t`; the two requests carry the
body `New update: S\nL\nB`, the one to `D1` has no `Authorization` header and the one to
`D2` has `Bearer t`. -/
theorem checkForUpdates_requests_witness :
    (fetchFeed demoEnv "feed43" demoWorld =
        ((some ⟨[item43, item42]⟩, none), emit (.httpGet "feed43") demoWorld) ∧
      item43.ID ≠ "42") ∧
    (∃ (visited : ServerMap) (sent : List Request),
      visited.Perm [("D1", ""), ("D2", "t")] ∧
      requests (checkForUpdates demoEnv "42" [("D1", ""), ("D2", "t")] "feed43"
        demoWorld).world.trace = requests demoWorld.trace ++ sent ∧
      sent.map (fun r => r.url) =
        (visited.filter (fun kv => (demoEnv.urlError kv.1).isNone)).map (fun kv => kv.1) ∧
      ∀ r ∈ sent, ∃ kv ∈ [("D1", ""), ("D2", "t")], r.url = kv.1 ∧ r.method = "POST" ∧
        r.body = "New update: " ++ item43.Subject ++ "\n" ++ item43.Link ++ "\n" ++ item43.Body ∧
        r.getHeader "Content-Type" = some "text/plain" ∧
        r.getHeader "Authorization" = if kv.2 = "" then none else some ("Bearer " ++ kv.2)) ∧
    (requests (checkForUpdates demoEnv "42" [("D1", ""), ("D2", "t")] "feed43"
        demoWorld).world.trace).map
        (fun r => (r.method, r.url, r.body, r.getHeader "Authorization")) =
      [("POST", "D1", "New update: S\nL\nB", none),
        ("POST", "D2", "New update: S\nL\nB", some "Bearer t")] ∧
    storedLastSeenID demoEnv (checkForUpdates demoEnv "42" [("D1", ""), ("D2", "t")] "feed43"
        demoWorld).world = some "43" :=
  ⟨⟨rfl, by decide⟩,
    checkForUpdates_requests demoEnv "42" [("D1", ""), ("D2", "t")] "feed43" demoWorld
      (emit (.httpGet "feed43") demoWorld) ⟨[item43, item42]⟩ item43 [item42] rfl rfl
      (by decide),
    rfl, rfl⟩

/-! ## The line codec reads back what it writes -/

theorem takeLine_append (s r : List Char) (h : '\n' ∉ s) :
    takeLine (s ++ '\n' :: r) = (s, r) := by
  induction s with
  | nil => simp [takeLine]
  | cons c s ih =>
    have hc : c ≠ '\n' := fun e => h (by simp [e])
    have hs : '\n' ∉ s := fun e => h (by simp [e])
    simp [takeLine, hc, ih hs]

theorem oneLine_not_mem (s : String) (h : oneLine s = true) : '\n' ∉ s.data := by
  simpa [oneLine] using h

theorem takeLine_encLine (s : String) (r : List Char) (h : oneLine s = true) :
    takeLine (encLine s ++ r) = (s.data, r) := by
  have := takeLine_append s.data r (oneLine_not_mem s h)
  simpa [encLine] using this

theorem decServers_encServers (l : List (String × ServerConfig)) (r : List Char)
    (h : ∀ kv ∈ l, oneLine kv.1 = true ∧ oneLine kv.2.Token = true ∧
      oneLine kv.2.NtfyServer = true) :
    decServers l.length (encServers l ++ r) = (l, r) := by
  induction l with
  | nil => simp [decServers, encServers]
  | cons kv l ih =>
    obtain ⟨name, sc⟩ := kv
    obtain ⟨h1, h2, h3⟩ := h (name, sc) (by simp)
    have ih' := ih (fun kv hkv => h kv (by simp [hkv]))
    simp only [List.length_cons, decServers, encServers, List.append_assoc]
    rw [takeLine_encLine name _ h1]
    simp only
    rw [takeLine_encLine sc.Token _ h2]
    simp only
    rw [takeLine_encLine sc.NtfyServer _ h3]
    simp only
    rw [ih']

/-- The line codec reads back exactly what it wrote. -/
theorem lineUnmarshal_lineMarshal (c : NTFYConfig) (d : String) (h : lineMarshal c = .ok d) :
    lineUnmarshal d = .ok c := by
  unfold lineMarshal at h
  split at h
  · rename_i hc
    simp only [Bool.and_eq_true, List.all_eq_true] at hc
    obtain ⟨⟨⟨h1, h2⟩, h3⟩, h4⟩ := hc
    injection h with h
    subst h
    have hmarks : '\n' ∉ List.replicate c.Servers.length '*' := by
      intro hm
      exact absurd (List.eq_of_mem_replicate hm) (by decide)
    unfold lineUnmarshal
    simp only
    rw [takeLine_encLine _ _ h1]
    simp only
    rw [takeLine_encLine _ _ h2]
    simp only
    rw [takeLine_encLine _ _ h3]
    simp only
    rw [takeLine_append _ _ hmarks]
    simp only [List.length_replicate]
    have hs := decServers_encServers c.Servers [] (by
      intro kv hkv
      have := h4 kv hkv
      simp only [Bool.and_eq_true] at this
      exact ⟨this.1.1, this.1.2, this.2⟩)
    rw [List.append_nil] at hs
    rw [hs]
  · cases h

/-- Every table environment has a codec that round-trips. -/
theorem tableEnv_roundTrips (turn : Nat → Bool) : RoundTrips (tableEnv turn) := by
  intro c d h
  exact ⟨c, lineUnmarshal_lineMarshal c d h, List.Perm.refl _, rfl, rfl, rfl⟩

/-! ## Lemmas on maps and on the map `readConfig` builds -/

theorem mapGet_mapSet (m : ServerMap) (k v k' : String) :
    mapGet (mapSet m k v) k' = if k = k' then some v else mapGet m k' := by
  induction m with
  | nil => simp [mapSet, mapGet]
  | cons p m ih =>
    obtain ⟨a, b⟩ := p
    by_cases h : a = k
    · subst h
      by_cases h' : a = k' <;> simp [mapSet, mapGet, h']
    · by_cases h' : a = k'
      · subst h'
        simp [mapSet, mapGet, h, Ne.symm h]
      · simp [mapSet, mapGet, h, h', ih]

theorem mem_keys_iff (m : ServerMap) (k : String) :
    k ∈ m.map Prod.fst ↔ mapGet m k ≠ none := by
  induction m with
  | nil => simp [mapGet]
  | cons p m ih =>
    obtain ⟨a, b⟩ := p
    by_cases h : a = k
    · simp [mapGet, h]
    · simp only [List.map_cons, List.mem_cons, mapGet, h, if_false, ih]
      constructor
      · rintro (h' | h')
        · exact absurd h'.symm h
        · exact h'
      · exact fun h' => Or.inr h'

theorem mem_iff_mapGet (m : ServerMap) (hnd : (m.map Prod.fst).Nodup) (k v : String) :
    (k, v) ∈ m ↔ mapGet m k = some v := by
  induction m with
  | nil => simp [mapGet]
  | cons p m ih =>
    obtain ⟨a, b⟩ := p
    simp only [List.map_cons, List.nodup_cons] at hnd
    by_cases h : a = k
    · subst h
      simp only [List.mem_cons, Prod.mk.injEq, true_and, mapGet, if_true, Option.some.injEq]
      constructor
      · rintro (h' | h')
        · exact h'.symm
        · exact absurd (List.mem_map_of_mem Prod.fst h') hnd.1
      · exact fun h' => Or.inl h'.symm
    · simp only [List.mem_cons, Prod.mk.injEq, mapGet, h, if_false, ih hnd.2]
      constructor
      · rintro (h' | h')
        · exact absurd h'.1.symm h
        · exact h'
      · exact fun h' => Or.inr h'

theorem mapSet_keys_nodup (m : ServerMap) (k v : String) (hnd : (m.map Prod.fst).Nodup) :
    ((mapSet m k v).map Prod.fst).Nodup := by
  induction m with
  | nil => simp [mapSet]
  | cons p m ih =>
    obtain ⟨a, b⟩ := p
    simp only [List.map_cons, List.nodup_cons] at hnd
    by_cases h : a = k
    · subst h
      simpa [mapSet] using hnd
    · simp only [mapSet, h, if_false, List.map_cons, List.nodup_cons]
      refine ⟨?_, ih hnd.2⟩
      intro hmem
      rw [mem_keys_iff, mapGet_mapSet] at hmem
      have hka : ¬ k = a := fun e => h e.symm
      simp only [hka, if_false] at hmem
      exact hnd.1 ((mem_keys_iff m a).2 hmem)

/-- The loop of lines 88-90 started from a map `m`. -/
theorem foldl_keys_nodup (l : List (String × ServerConfig)) (m : ServerMap)
    (hnd : (m.map Prod.fst).Nodup) :
    ((l.foldl (fun m kv => mapSet m kv.2.NtfyServer kv.2.Token) m).map Prod.fst).Nodup := by
  induction l generalizing m with
  | nil => exact hnd
  | cons g l ih => exact ih _ (mapSet_keys_nodup m _ _ hnd)

theorem foldl_get_sound (l : List (String × ServerConfig)) (m : ServerMap) (k v : String)
    (h : mapGet (l.foldl (fun m kv => mapSet m kv.2.NtfyServer kv.2.Token) m) k = some v) :
    mapGet m k = some v ∨ ∃ g ∈ l, g.2.NtfyServer = k ∧ g.2.Token = v := by
  induction l generalizing m with
  | nil => exact Or.inl h
  | cons g l ih =>
    rcases ih _ h with h' | ⟨g', hg', hk, hv⟩
    · rw [mapGet_mapSet] at h'
      by_cases hgk : g.2.NtfyServer = k
      · simp only [hgk, if_true, Option.some.injEq] at h'
        exact Or.inr ⟨g, by simp, hgk, h'⟩
      · simp only [hgk, if_false] at h'
        exact Or.inl h'
    · exact Or.inr ⟨g', by simp [hg'], hk, hv⟩

theorem foldl_get_ne_none (l : List (String × ServerConfig)) (m : ServerMap) (k : String)
    (h : mapGet m k ≠ none ∨ ∃ g ∈ l, g.2.NtfyServer = k) :
    mapGet (l.foldl (fun m kv => mapSet m kv.2.NtfyServer kv.2.Token) m) k ≠ none := by
  induction l generalizing m with
  | nil =>
    rcases h with h | ⟨g, hg, _⟩
    · exact h
    · cases hg
  | cons g l ih =>
    apply ih
    rcases h with h | ⟨g', hg', hk⟩
    · left
      rw [mapGet_mapSet]
      by_cases hgk : g.2.NtfyServer = k <;> simp [hgk, h]
    · rcases List.mem_cons.1 hg' with rfl | hmem
      · left
        rw [mapGet_mapSet]
        simp [hk]
      · exact Or.inr ⟨g', hmem, hk⟩

theorem buildServerMap_keys_nodup (l : List (String × ServerConfig)) :
    ((buildServerMap l).map Prod.fst).Nodup :=
  foldl_keys_nodup l [] (by simp)

theorem buildServerMap_get_sound (l : List (String × ServerConfig)) (k v : String)
    (h : mapGet (buildServerMap l) k = some v) :
    ∃ g ∈ l, g.2.NtfyServer = k ∧ g.2.Token = v := by
  rcases foldl_get_sound l [] k v h with h' | h'
  · simp [mapGet] at h'
  · exact h'

theorem buildServerMap_mem_keys (l : List (String × ServerConfig)) (k : String) :
    k ∈ (buildServerMap l).map Prod.fst ↔ ∃ g ∈ l, g.2.NtfyServer = k := by
  rw [mem_keys_iff]
  constructor
  · intro h
    cases hv : mapGet (buildServerMap l) k with
    | none => exact absurd hv h
    | some v =>
      obtain ⟨g, hg, hk, _⟩ := buildServerMap_get_sound l k v hv
      exact ⟨g, hg, hk⟩
  · intro h
    exact foldl_get_ne_none l [] k (Or.inr h)

/-- An endpoint whose groups all carry the token `t` is mapped to `t`. -/
theorem buildServerMap_get_uniform (l : List (String × ServerConfig)) (k t : String)
    (hex : ∃ g ∈ l, g.2.NtfyServer = k)
    (huni : ∀ g ∈ l, g.2.NtfyServer = k → g.2.Token = t) :
    mapGet (buildServerMap l) k = some t := by
  cases hv : mapGet (buildServerMap l) k with
  | none => exact absurd hv (foldl_get_ne_none l [] k (Or.inr hex))
  | some v =>
    obtain ⟨g, hg, hk, htok⟩ := buildServerMap_get_sound l k v hv
    rw [← htok, huni g hg hk]

theorem buildServerMap_length (l : List (String × ServerConfig))
    (hnd : (l.map (fun g => g.2.NtfyServer)).Nodup) :
    (buildServerMap l).length = l.length := by
  have hperm : ((buildServerMap l).map Prod.fst).Perm (l.map (fun g => g.2.NtfyServer)) := by
    rw [List.perm_ext_iff_of_nodup (buildServerMap_keys_nodup l) hnd]
    intro k
    rw [buildServerMap_mem_keys]
    simp [List.mem_map]
  simpa using hperm.length_eq

/-- What `readConfig` returns when `config.yml` reads, parses and holds a valid interval. -/
theorem readConfig_ok (env : Env) (w : World) (data : String) (cfg : NTFYConfig) (d : Int)
    (hfile : w.file = .ok data) (hparse : env.yamlUnmarshal data = .ok cfg)
    (hdur : env.parseDuration cfg.RefreshInterval = .ok d) :
    readConfig env w =
      ((buildServerMap (env.rangeServers (emit .readFile w).trace cfg.Servers),
        cfg.LastSeenID, cfg.FeedURL, d, none), emit .readFile w) := by
  unfold readConfig
  simp [hfile, hparse, hdur]

/-- C9: for a configuration that reads and parses, the destination map `readConfig`
returns has pairwise distinct keys, its keys are exactly the `ntfy_server` values of the
configured groups, every entry carries the token of some group with that `ntfy_server`,
and when no two groups share an `ntfy_server` it has one entry per group, carrying that
group's token. -/
theorem readConfig_serverMap (env : Env) (w : World) (data : String) (cfg : NTFYConfig)
    (d : Int) (hfile : w.file = .ok data) (hparse : env.yamlUnmarshal data = .ok cfg)
    (hdur : env.parseDuration cfg.RefreshInterval = .ok d) :
    ∃ (serverMap : ServerMap) (w1 : World),
      readConfig env w = ((serverMap, cfg.LastSeenID, cfg.FeedURL, d, none), w1) ∧
      (serverMap.map Prod.fst).Nodup ∧
      (∀ k, k ∈ serverMap.map Prod.fst ↔ ∃ g ∈ cfg.Servers, g.2.NtfyServer = k) ∧
      (∀ k v, (k, v) ∈ serverMap → ∃ g ∈ cfg.Servers, g.2.NtfyServer = k ∧ g.2.Token = v) ∧
      ((cfg.Servers.map (fun g => g.2.NtfyServer)).Nodup →
        serverMap.length = cfg.Servers.length ∧
        ∀ g ∈ cfg.Servers, (g.2.NtfyServer, g.2.Token) ∈ serverMap) := by
  have hperm := env.rangeServers_perm (emit .readFile w).trace cfg.Servers
  generalize hl : env.rangeServers (emit .readFile w).trace cfg.Servers = l at hperm
  refine ⟨buildServerMap l, emit .readFile w, ?_, buildServerMap_keys_nodup l, ?_, ?_, ?_⟩
  · rw [readConfig_ok env w data cfg d hfile hparse hdur, hl]
  · intro k
    rw [buildServerMap_mem_keys]
    constructor
    · rintro ⟨g, hg, hk⟩
      exact ⟨g, hperm.mem_iff.1 hg, hk⟩
    · rintro ⟨g, hg, hk⟩
      exact ⟨g, hperm.mem_iff.2 hg, hk⟩
  · intro k v hkv
    rw [mem_iff_mapGet _ (buildServerMap_keys_nodup l)] at hkv
    obtain ⟨g, hg, hk, hv⟩ := buildServerMap_get_sound l k v hkv
    exact ⟨g, hperm.mem_iff.1 hg, hk, hv⟩
  · intro hnd
    have hndl : (l.map (fun g => g.2.NtfyServer)).Nodup :=
      (hperm.map _).nodup_iff.2 hnd
    refine ⟨by rw [buildServerMap_length l hndl, hperm.length_eq], ?_⟩
    intro g hg
    rw [mem_iff_mapGet _ (buildServerMap_keys_nodup l)]
    apply buildServerMap_get_uniform l _ _ ⟨g, hperm.mem_iff.2 hg, rfl⟩
    intro g' hg' hk
    have hinj := List.inj_on_of_nodup_map hndl hg' (hperm.mem_iff.2 hg) hk
    rw [hinj]

/-- C9 at a concrete input: the two groups of `demoConfig` give the map
`D1 -> ""`, `D2 -> "t"`. -/
theorem readConfig_serverMap_witness :
    (demoWorld.file = .ok demoFile ∧ demoEnv.yamlUnmarshal demoFile = .ok demoConfig ∧
      demoEnv.parseDuration demoConfig.RefreshInterval = .ok 900000000000) ∧
    (readConfig demoEnv demoWorld).1 =
      ([("D1", ""), ("D2", "t")], "42", "feed43", 900000000000, none) ∧
    ∃ (serverMap : ServerMap) (w1 : World),
      readConfig demoEnv demoWorld =
        ((serverMap, demoConfig.LastSeenID, demoConfig.FeedURL, 900000000000, none), w1) ∧
      (serverMap.map Prod.fst).Nodup ∧
      (∀ k, k ∈ serverMap.map Prod.fst ↔ ∃ g ∈ demoConfig.Servers, g.2.NtfyServer = k) ∧
      (∀ k v, (k, v) ∈ serverMap →
        ∃ g ∈ demoConfig.Servers, g.2.NtfyServer = k ∧ g.2.Token = v) ∧
      ((demoConfig.Servers.map (fun g => g.2.NtfyServer)).Nodup →
        serverMap.length = demoConfig.Servers.length ∧
        ∀ g ∈ demoConfig.Servers, (g.2.NtfyServer, g.2.Token) ∈ serverMap) :=
  ⟨⟨rfl, rfl, rfl⟩, rfl,
    readConfig_serverMap demoEnv demoWorld demoFile demoConfig 900000000000 rfl rfl rfl⟩

/-- Two visiting orders of the same groups give an endpoint the same token when the
groups with that endpoint agree on the token. -/
theorem buildServerMap_get_congr (l1 l2 : List (String × ServerConfig)) (hp : l1.Perm l2)
    (k : String)
    (huni : ∀ g ∈ l2, ∀ g' ∈ l2, g.2.NtfyServer = k → g'.2.NtfyServer = k →
      g.2.Token = g'.2.Token) :
    mapGet (buildServerMap l1) k = mapGet (buildServerMap l2) k := by
  by_cases hex : ∃ g ∈ l2, g.2.NtfyServer = k
  · obtain ⟨g, hg, hk⟩ := hex
    have h2 := buildServerMap_get_uniform l2 k g.2.Token ⟨g, hg, hk⟩
      (fun g' hg' hk' => huni g' hg' g hg hk' hk)
    have h1 := buildServerMap_get_uniform l1 k g.2.Token ⟨g, hp.mem_iff.2 hg, hk⟩
      (fun g' hg' hk' => huni g' (hp.mem_iff.1 hg') g hg hk' hk)
    rw [h1, h2]
  · have h2 : mapGet (buildServerMap l2) k = none := by
      by_contra h
      exact hex ((buildServerMap_mem_keys l2 k).1 ((mem_keys_iff _ k).2 h))
    have h1 : mapGet (buildServerMap l1) k = none := by
      by_contra h
      obtain ⟨g, hg, hk⟩ := (buildServerMap_mem_keys l1 k).1 ((mem_keys_iff _ k).2 h)
      exact hex ⟨g, hp.mem_iff.1 hg, hk⟩
    rw [h1, h2]

/-- C7 (as amended): for a configuration that reads and parses and a codec that
round-trips, when `writeLastSeenID id` returns, `readConfig` afterwards yields
`lastSeenID = id` with the feed URL and the refresh interval `readConfig` returned before
the write, and a destination map with the same endpoints; an endpoint has the token it had
before whenever the groups with that endpoint agree on the token, so the whole map is the
same when no two groups share an `ntfy_server`. -/
theorem writeLastSeenID_readConfig (env : Env) (hrt : RoundTrips env) (id : String)
    (w0 w w1 : World) (data : String) (cfg : NTFYConfig) (d : Int)
    (hfile0 : w0.file = .ok data) (hfile : w.file = .ok data)
    (hparse : env.yamlUnmarshal data = .ok cfg)
    (hdur : env.parseDuration cfg.RefreshInterval = .ok d)
    (hwrite : writeLastSeenID env id w = .ok () w1) :
    ∃ (before after : ServerMap),
      (readConfig env w0).1 = (before, cfg.LastSeenID, cfg.FeedURL, d, none) ∧
      (readConfig env w1).1 = (after, id, cfg.FeedURL, d, none) ∧
      (∀ k, k ∈ after.map Prod.fst ↔ k ∈ before.map Prod.fst) ∧
      (∀ k, (∀ g ∈ cfg.Servers, ∀ g' ∈ cfg.Servers, g.2.NtfyServer = k →
          g'.2.NtfyServer = k → g.2.Token = g'.2.Token) →
        mapGet after k = mapGet before k) ∧
      ((cfg.Servers.map (fun g => g.2.NtfyServer)).Nodup →
        ∀ k, mapGet after k = mapGet before k) := by
  obtain ⟨data', cfg0, newData, hf, hu, hm, hf1⟩ := writeLastSeenID_ok env id w w1 hwrite
  rw [hfile] at hf
  injection hf with hf
  subst hf
  rw [hparse] at hu
  injection hu with hu
  subst hu
  obtain ⟨c', hu', hperm', hid', hurl', hint'⟩ := hrt _ _ hm
  simp only at hid' hurl' hint' hperm'
  have hdur' : env.parseDuration c'.RefreshInterval = .ok d := by rw [hint']; exact hdur
  have hp0 := env.rangeServers_perm (emit .readFile w0).trace cfg.Servers
  have hp1 := (env.rangeServers_perm (emit .readFile w1).trace c'.Servers).trans hperm'
  have hcongr : ∀ k, (∀ g ∈ cfg.Servers, ∀ g' ∈ cfg.Servers, g.2.NtfyServer = k →
      g'.2.NtfyServer = k → g.2.Token = g'.2.Token) →
      mapGet (buildServerMap (env.rangeServers (emit .readFile w1).trace c'.Servers)) k =
        mapGet (buildServerMap (env.rangeServers (emit .readFile w0).trace cfg.Servers)) k := by
    intro k huni
    rw [buildServerMap_get_congr _ _ hp1 k huni, buildServerMap_get_congr _ _ hp0 k huni]
  refine ⟨_, _, ?_, ?_, ?_, hcongr, ?_⟩
  · rw [readConfig_ok env w0 data cfg d hfile0 hparse hdur]
  · rw [readConfig_ok env w1 newData c' d hf1 hu' hdur', hid', hurl']
  · intro k
    rw [buildServerMap_mem_keys, buildServerMap_mem_keys]
    constructor
    · rintro ⟨g, hg, hk⟩
      exact ⟨g, hp0.mem_iff.2 (hp1.mem_iff.1 hg), hk⟩
    · rintro ⟨g, hg, hk⟩
      exact ⟨g, hp1.mem_iff.2 (hp0.mem_iff.1 hg), hk⟩
  · intro hnd k
    apply hcongr
    intro g hg g' hg' hk hk'
    rw [List.inj_on_of_nodup_map hnd hg hg' (hk.trans hk'.symm)]

/-- C7 at a concrete input: with `demoConfig` on file, writing id 43 and reading the
configuration again gives id 43 and the feed URL, interval and destination map of before. -/
theorem writeLastSeenID_readConfig_witness :
    (RoundTrips demoEnv ∧ demoWorld.file = .ok demoFile ∧
      demoEnv.yamlUnmarshal demoFile = .ok demoConfig ∧
      demoEnv.parseDuration demoConfig.RefreshInterval = .ok 900000000000 ∧
      (writeLastSeenID demoEnv "43" demoWorld).result = some ()) ∧
    (readConfig demoEnv (writeLastSeenID demoEnv "43" demoWorld).world).1 =
      ([("D1", ""), ("D2", "t")], "43", "feed43", 900000000000, none) ∧
    ∃ (before after : ServerMap),
      (readConfig demoEnv demoWorld).1 =
        (before, demoConfig.LastSeenID, demoConfig.FeedURL, 900000000000, none) ∧
      (readConfig demoEnv (writeLastSeenID demoEnv "43" demoWorld).world).1 =
        (after, "43", demoConfig.FeedURL, 900000000000, none) ∧
      (∀ k, k ∈ after.map Prod.fst ↔ k ∈ before.map Prod.fst) ∧
      (∀ k, (∀ g ∈ demoConfig.Servers, ∀ g' ∈ demoConfig.Servers, g.2.NtfyServer = k →
          g'.2.NtfyServer = k → g.2.Token = g'.2.Token) →
        mapGet after k = mapGet before k) ∧
      ((demoConfig.Servers.map (fun g => g.2.NtfyServer)).Nodup →
        ∀ k, mapGet after k = mapGet before k) :=
  ⟨⟨tableEnv_roundTrips _, rfl, rfl, rfl, rfl⟩, rfl,
    writeLastSeenID_readConfig demoEnv (tableEnv_roundTrips _) "43" demoWorld demoWorld
      (writeLastSeenID demoEnv "43" demoWorld).world demoFile demoConfig 900000000000
      rfl rfl rfl rfl rfl⟩

/-- C7 as stated fails: `sharedConfig` reads and parses and the codec round-trips, yet
`readConfig` maps the shared endpoint `X` to `t2` before `writeLastSeenID "43"` and to `t1`
after it, because the second range loop over the groups runs in the other order. -/
theorem writeLastSeenID_readConfig_counterexample :
    RoundTrips flipEnv ∧
      sharedWorld.file = .ok sharedFile ∧
      flipEnv.yamlUnmarshal sharedFile = .ok sharedConfig ∧
      (readConfig flipEnv sharedWorld).1 = ([("X", "t2")], "42", "feed43", 900000000000, none) ∧
      (writeLastSeenID flipEnv "43" (readConfig flipEnv sharedWorld).2).result = some () ∧
      (readConfig flipEnv
          (writeLastSeenID flipEnv "43" (readConfig flipEnv sharedWorld).2).world).1 =
        ([("X", "t1")], "43", "feed43", 900000000000, none) ∧
      storedLastSeenID flipEnv
          (writeLastSeenID flipEnv "43" (readConfig flipEnv sharedWorld).2).world = some "43" :=
  ⟨tableEnv_roundTrips _, rfl, rfl, rfl, rfl, rfl, rfl⟩

/-! ## The loop of `main` -/

/-- The ways `checkForUpdates` returns: with `(lastID, nil)` and `config.yml` untouched, or
with `(id, nil)` after `writeLastSeenID id` has returned.  It never returns an error. -/
theorem checkForUpdates_ok_cases (env : Env) (lastID : String) (serverMap : ServerMap)
    (feedURL : String) (w w' : World) (r : String × Option GoError)
    (h : checkForUpdates env lastID serverMap feedURL w = .ok r w') :
    (r = (lastID, none) ∧ w'.file = w.file) ∨
      (∃ w2, r.2 = none ∧ w2.file = w.file ∧ writeLastSeenID env r.1 w2 = .ok () w') := by
  have hworld := fetchFeed_world env feedURL w
  rcases fetchFeed_cases env feedURL w with ⟨feed, hf⟩ | ⟨err, hf⟩
  · have hfetch : fetchFeed env feedURL w = ((some feed, none), emit (.httpGet feedURL) w) :=
      Prod.ext hf hworld
    cases hitems : feed.Items with
    | nil =>
      unfold checkForUpdates at h
      rw [hfetch] at h
      simp [firstItem, hitems] at h
    | cons first rest =>
      by_cases hid : first.ID = lastID
      · left
        unfold checkForUpdates at h
        rw [hfetch] at h
        simp [firstItem, hitems, hid] at h
        obtain ⟨h1, h2⟩ := h
        subst h1 h2
        exact ⟨rfl, rfl⟩
      · right
        rw [checkForUpdates_update_eq env lastID serverMap feedURL w _ feed first rest hfetch
          hitems hid] at h
        generalize hw2 : notifyAll env
          ("New update: " ++ first.Subject ++ "\n" ++ first.Link ++ "\n" ++ first.Body)
          (env.rangeServerMap (emit (.httpGet feedURL) w).trace serverMap)
          (emit (.httpGet feedURL) w) = w2 at h
        have hfile2 : w2.file = w.file := by
          rw [← hw2, notifyAll_file]
          rfl
        cases hwr : writeLastSeenID env first.ID w2 with
        | ok u w3 =>
          rw [hwr] at h
          simp only [Outcome.ok.injEq] at h
          obtain ⟨h1, h2⟩ := h
          subst h1 h2
          exact ⟨w2, rfl, hfile2, hwr⟩
        | panic reason w3 =>
          rw [hwr] at h
          cases h
        | exit code w3 =>
          rw [hwr] at h
          cases h
  · have hfetch : fetchFeed env feedURL w = ((none, some err), emit (.httpGet feedURL) w) :=
      Prod.ext hf hworld
    unfold checkForUpdates at h
    rw [hfetch] at h
    simp [firstItem] at h

/-- The stored id depends on the file only. -/
theorem storedLastSeenID_congr (env : Env) (w w' : World) (h : w'.file = w.file) :
    storedLastSeenID env w' = storedLastSeenID env w := by
  unfold storedLastSeenID
  rw [h]

/-- After `writeLastSeenID id` has returned, a round-tripping codec reads `id` from the file. -/
theorem storedLastSeenID_after_write (env : Env) (hrt : RoundTrips env) (id : String)
    (w w1 : World) (h : writeLastSeenID env id w = .ok () w1) :
    storedLastSeenID env w1 = some id := by
  obtain ⟨data, cfg, newData, _, _, hm, hf1⟩ := writeLastSeenID_ok env id w w1 h
  obtain ⟨c', hu', _, hid', _, _⟩ := hrt _ _ hm
  unfold storedLastSeenID
  rw [hf1]
  simp only [hu', hid']

theorem mainAfterCheck_file (st : LoopState) (r : String × Option GoError) (w : World) :
    (mainAfterCheck st r w).2.file = w.file := by
  obtain ⟨newID, err⟩ := r
  cases err <;> rfl

/-- One completed iteration keeps the in-memory id equal to the stored one. -/
theorem mainIteration_invariant (env : Env) (hrt : RoundTrips env) (st st' : LoopState)
    (w w' : World) (hinv : storedLastSeenID env w = some st.lastID)
    (h : mainIteration env st w = .ok st' w') :
    storedLastSeenID env w' = some st'.lastID := by
  unfold mainIteration at h
  cases hc : checkForUpdates env st.lastID st.serverMap st.feedURL w with
  | ok r w1 =>
    rw [hc] at h
    simp only [Outcome.ok.injEq] at h
    obtain ⟨h1, h2⟩ := h
    subst h1 h2
    rw [storedLastSeenID_congr env w1 _ (mainAfterCheck_file st r w1)]
    rcases checkForUpdates_ok_cases env _ _ _ w w1 r hc with ⟨hr, hfile⟩ | ⟨w2, hr, _, hwr⟩
    · subst hr
      rw [storedLastSeenID_congr env w w1 hfile, hinv]
      rfl
    · obtain ⟨newID, err⟩ := r
      simp only at hr hwr
      subst hr
      rw [storedLastSeenID_after_write env hrt newID w2 w1 hwr]
      rfl
  | panic reason w1 =>
    rw [hc] at h
    cases h
  | exit code w1 =>
    rw [hc] at h
    cases h

theorem mainLoop_invariant (env : Env) (hrt : RoundTrips env) (n : Nat) (st st' : LoopState)
    (w w' : World) (hinv : storedLastSeenID env w = some st.lastID)
    (h : mainLoop env n st w = .ok st' w') :
    storedLastSeenID env w' = some st'.lastID := by
  induction n generalizing st w with
  | zero =>
    simp only [mainLoop, Outcome.ok.injEq] at h
    obtain ⟨h1, h2⟩ := h
    subst h1 h2
    exact hinv
  | succ n ih =>
    unfold mainLoop at h
    cases hi : mainIteration env st w with
    | ok st1 w1 =>
      rw [hi] at h
      exact ih st1 w1 (mainIteration_invariant env hrt st st1 w w1 hinv hi) h
    | panic reason w1 =>
      rw [hi] at h
      cases h
    | exit code w1 =>
      rw [hi] at h
      cases h

theorem mainInit_invariant (env : Env) (st : LoopState) (w w1 : World)
    (h : mainInit env w = .ok st w1) : storedLastSeenID env w1 = some st.lastID := by
  unfold mainInit readConfig at h
  unfold storedLastSeenID
  cases hf : w.file with
  | error err => simp [hf] at h
  | ok data =>
    cases hu : env.yamlUnmarshal data with
    | error err => simp [hf, hu] at h
    | ok config =>
      cases hd : env.parseDuration config.RefreshInterval with
      | error err => simp [hf, hu, hd] at h
      | ok refreshInterval =>
        simp [hf, hu, hd] at h
        obtain ⟨h1, h2⟩ := h
        subst h1 h2
        simp [emit, hf, hu]

/-- C10: with a codec that round-trips and `config.yml` written by the program alone, at
loop entry and after every completed iteration of the loop of `main` the in-memory
`lastID` is the `last_seen_id` stored in `config.yml`. -/
theorem main_lastID_stored (env : Env) (hrt : RoundTrips env) (n : Nat) (w w' : World)
    (st' : LoopState) (h : main env n w = .ok st' w') :
    storedLastSeenID env w' = some st'.lastID := by
  unfold main at h
  cases hi : mainInit env w with
  | ok st w1 =>
    rw [hi] at h
    exact mainLoop_invariant env hrt n st st' w1 w' (mainInit_invariant env st w w1 hi) h
  | panic reason w1 =>
    rw [hi] at h
    cases h
  | exit code w1 =>
    rw [hi] at h
    cases h

/-- C10 at a concrete run: two iterations from `demoConfig` (an update to 43, then no
update) complete, and both the in-memory id and the stored id are 43. -/
theorem main_lastID_stored_witness :
    RoundTrips demoEnv ∧
      ∃ (st' : LoopState) (w' : World), main demoEnv 2 demoWorld = .ok st' w' ∧
        st'.lastID = "43" ∧ storedLastSeenID demoEnv w' = some st'.lastID :=
  ⟨tableEnv_roundTrips _,
    ⟨[("D1", ""), ("D2", "t")], "43", "feed43", 900000000000⟩,
    (main demoEnv 2 demoWorld).world, rfl, rfl,
    main_lastID_stored demoEnv (tableEnv_roundTrips _) 2 demoWorld
      (main demoEnv 2 demoWorld).world ⟨[("D1", ""), ("D2", "t")], "43", "feed43", 900000000000⟩
      rfl⟩

theorem mainLoop_frame (env : Env) (n : Nat) (st st' : LoopState) (w w' : World)
    (h : mainLoop env n st w = .ok st' w') :
    st'.serverMap = st.serverMap ∧ st'.feedURL = st.feedURL ∧
      st'.refreshInterval = st.refreshInterval := by
  induction n generalizing st w with
  | zero =>
    simp only [mainLoop, Outcome.ok.injEq] at h
    rw [← h.1]
    exact ⟨rfl, rfl, rfl⟩
  | succ n ih =>
    unfold mainLoop at h
    cases hi : mainIteration env st w with
    | ok st1 w1 =>
      rw [hi] at h
      obtain ⟨h1, h2, h3⟩ := ih st1 w1 h
      unfold mainIteration at hi
      cases hc : checkForUpdates env st.lastID st.serverMap st.feedURL w with
      | ok r w2 =>
        rw [hc] at hi
        simp only [Outcome.ok.injEq] at hi
        obtain ⟨newID, err⟩ := r
        have hst : st1.serverMap = st.serverMap ∧ st1.feedURL = st.feedURL ∧
            st1.refreshInterval = st.refreshInterval := by
          rw [← hi.1]
          cases err <;> exact ⟨rfl, rfl, rfl⟩
        exact ⟨h1.trans hst.1, h2.trans hst.2.1, h3.trans hst.2.2⟩
      | panic reason w2 =>
        rw [hc] at hi
        cases hi
      | exit code w2 =>
        rw [hc] at hi
        cases hi
    | panic reason w1 =>
      rw [hi] at h
      cases h
    | exit code w1 =>
      rw [hi] at h
      cases h

/-- C8: in an iteration of the loop of `main`, when `checkForUpdates` returns
`(newID, nil)` the in-memory `lastID` becomes `newID`; when it returns an error (with
whatever id) the loop variables, `lastID` included, stay as they were; and however many
iterations complete, the destination map, the feed URL and the refresh interval are the
ones the loop started with. -/
theorem mainIteration_lastID (env : Env) (st : LoopState) (w : World) :
    (∀ newID w1, checkForUpdates env st.lastID st.serverMap st.feedURL w = .ok (newID, none) w1 →
        mainIteration env st w =
          .ok { st with lastID := newID } (emit (.sleep st.refreshInterval) w1)) ∧
      (∀ id err w1,
        checkForUpdates env st.lastID st.serverMap st.feedURL w = .ok (id, some err) w1 →
        mainIteration env st w =
          .ok st (emit (.sleep st.refreshInterval) (emit (.log ("Error: " ++ err.msg)) w1))) ∧
      (∀ newID w1, (mainAfterCheck st (newID, none) w1).1 = { st with lastID := newID }) ∧
      (∀ id err w1, (mainAfterCheck st (id, some err) w1).1 = st) ∧
      (∀ n st' w', mainLoop env n st w = .ok st' w' →
        st'.serverMap = st.serverMap ∧ st'.feedURL = st.feedURL ∧
          st'.refreshInterval = st.refreshInterval) := by
  refine ⟨?_, ?_, fun _ _ => rfl, fun _ _ _ => rfl, ?_⟩
  · intro newID w1 h
    unfold mainIteration
    rw [h]
    rfl
  · intro id err w1 h
    unfold mainIteration
    rw [h]
    rfl
  · intro n st' w' h
    exact mainLoop_frame env n st st' w w' h

/-- C8 at a concrete iteration: from stored id 42 and the feed `[item43, item42]`,
`checkForUpdates` returns `(43, nil)` and the iteration leaves `lastID = 43` and the other
loop variables as they were. -/
theorem mainIteration_lastID_witness :
    (mainIteration demoEnv ⟨[("D1", ""), ("D2", "t")], "42", "feed43", 900000000000⟩
        demoWorld).result =
      some ⟨[("D1", ""), ("D2", "t")], "43", "feed43", 900000000000⟩ :=
  congrArg Outcome.result
    ((mainIteration_lastID demoEnv ⟨[("D1", ""), ("D2", "t")], "42", "feed43", 900000000000⟩
      demoWorld).1 "43"
      (checkForUpdates demoEnv "42" [("D1", ""), ("D2", "t")] "feed43" demoWorld).world rfl)

end OpnsenseNtfy
